import Mathlib

/-!
Verification of the OCR pipeline core: the remote-recognition client
(retry, backoff, cost accumulation, refusal detection), the image
resizer, date extraction and output formatting, the orchestrator, and
the bounded worker pool.

Strings are modelled with Lean `String`/`List Char` (the repository's
inputs are ASCII, so Go's byte-based `len` and Unicode-aware folds
coincide with the character-based model on every input considered
here); `float64` money amounts are modelled as `ℚ` (the cost formula
uses only exact decimal constants); `context.Context` cancellation is
not modelled (no claim depends on it firing).
-/

namespace OCR

/-! ### String helpers (strings.Contains / ToLower / TrimSpace) -/

/-- strings.Contains: `pat` occurs as a contiguous substring of `s`. -/
def containsSub (s pat : List Char) : Bool :=
  match s with
  | [] => pat.isEmpty
  | c :: rest => pat.isPrefixOf (c :: rest) || containsSub rest pat

/-- strings.ToLower on the character list (ASCII case fold). -/
def lowerChars (s : List Char) : List Char := s.map Char.toLower

/-- strings.TrimSpace: drop leading and trailing whitespace. -/
def trimChars (s : List Char) : List Char :=
  ((s.dropWhile Char.isWhitespace).reverse.dropWhile Char.isWhitespace).reverse

/-! ### Refusal detection (client isRefusalResponse) -/

/-- The `shortRefusalPatterns` list of `isRefusalResponse`. -/
def shortRefusalPatterns : List String :=
  ["i'm sorry", "i can't", "i cannot", "unable to", "can't assist",
   "can't help", "can't transcribe", "cannot transcribe",
   "unable to transcribe", "i'm unable", "sorry, i can't"]

/-- The comprehensive `refusalPatterns` list of `isRefusalResponse`. -/
def refusalPatterns : List String :=
  ["i'm sorry, i can't", "i'm sorry, i cannot", "i can't assist",
   "i cannot assist", "i'm unable to assist", "i cannot help", "i can't help",
   "i'm sorry, i can't help", "i'm sorry, i can't assist",
   "i'm sorry, i cannot assist", "i'm sorry, i can't transcribe",
   "i'm sorry, i cannot transcribe", "i can't transcribe",
   "i cannot transcribe", "unable to transcribe", "can't transcribe",
   "cannot transcribe", "can't transcribe the text",
   "cannot transcribe the text", "unable to transcribe the text",
   "can't transcribe text from", "cannot transcribe text from",
   "unable to transcribe text from", "can't transcribe the text from the image",
   "cannot transcribe the text from the image",
   "unable to transcribe the text from the image",
   "can't transcribe the text from this image",
   "cannot transcribe the text from this image",
   "unable to transcribe the text from this image", "content policy",
   "against my usage policies", "against my policies",
   "inappropriate content", "violates my", "against my guidelines",
   "i'm not able to", "i am not able to", "not able to transcribe",
   "not able to assist", "not able to help"]

/-- isRefusalResponse: heuristic deciding that the service declined to
transcribe.  First the sorry/transcribe/negation conjunction, then (for
responses shorter than 100 bytes) the short-pattern list, then the
comprehensive pattern list. -/
def isRefusalResponse (text : String) : Bool :=
  if text = "" then false
  else
    let textLower : List Char := lowerChars (trimChars text.data)
    if containsSub textLower "sorry".data &&
        containsSub textLower "transcribe".data &&
        (containsSub textLower "can't".data ||
         containsSub textLower "cannot".data ||
         containsSub textLower "unable".data) then
      true
    else if text.utf8ByteSize < 100 &&
        shortRefusalPatterns.any (fun p => containsSub textLower p.data) then
      true
    else
      refusalPatterns.any (fun p => containsSub textLower p.data)

/-! ### One recognition attempt (client ocrImageOnce) -/

/-- Token usage reported by the remote service for one request. -/
structure Usage where
  promptTokens : Nat
  completionTokens : Nat
deriving DecidableEq

/-- A chat-completion response: the message contents of its choices,
and the reported usage. -/
structure ChatResponse where
  choices : List String
  usage : Usage
deriving DecidableEq

/-- What the transport (CreateChatCompletion) produces for one attempt:
a structured API failure carrying the remote HTTP status, some other
transport failure, or a response. -/
inductive TransportResult
  | apiFailure (status : Nat) (message : String)
  | failure (message : String)
  | response (r : ChatResponse)
deriving DecidableEq

/-- The errors one attempt can end in: APIError{status, message},
ErrAPIRequestFailed, or ErrRefusalResponse carrying the refused text. -/
inductive AttemptError
  | apiError (status : Nat) (message : String)
  | requestFailed (message : String)
  | refusal (text : String)
deriving DecidableEq

/-- Cost of one attempt from the reported usage:
`(inputTokens/1000)*0.01 + (outputTokens/1000)*0.03`. -/
def attemptCost (u : Usage) : ℚ :=
  (u.promptTokens : ℚ) / 1000 * 0.01 + (u.completionTokens : ℚ) / 1000 * 0.03

/-- ocrImageOnce: one OCR request, given the transport's result.
Returns (text, cost, error).  The refusal check runs before the cost
computation, so a refusal returns the zero-valued named `cost`. -/
def ocrImageOnce (t : TransportResult) : String × ℚ × Option AttemptError :=
  match t with
  | .apiFailure status message => ("", 0, some (.apiError status message))
  | .failure message => ("", 0, some (.requestFailed message))
  | .response r =>
    match r.choices.head? with
    | none => ("", 0, some (.requestFailed "no choices in response"))
    | some text =>
      if isRefusalResponse text then ("", 0, some (.refusal text))
      else (text, attemptCost r.usage, none)

/-! ### The retry loop (client OCRImage) -/

/-- The fixed attempt cap. -/
def maxRetries : Nat := 5

/-- The wait in milliseconds before retry number `attempt` (`attempt ≥ 1`):
`max(1<<(attempt-1) ms, 10ms)`.  Note the source applies `max`, a floor
at 10ms, although its comment says "capped at 50ms". -/
def backoffMs (attempt : Nat) : Nat := Nat.max (2 ^ (attempt - 1)) 10

/-- The retry-stopping check: the attempt error is an APIError whose
status is 401 (http.StatusUnauthorized). -/
def isTerminalAuthError : AttemptError → Bool
  | .apiError status _ => status == 401
  | _ => false

/-- The error OCRImage itself returns: a terminal attempt error
passed through, or ErrMaxRetriesExceeded wrapping the last failure. -/
inductive OCRError
  | terminal (e : AttemptError)
  | maxRetriesExceeded (lastErr : Option AttemptError)
deriving DecidableEq

/-- What one OCRImage call returns, together with the backoff delays
(in ms) it waited, in order. -/
structure OCRCallResult where
  text : String
  totalCost : ℚ
  attempts : Nat
  error : Option OCRError
  delays : List Nat
deriving DecidableEq

/-- The body of OCRImage's `for attempt := 0; attempt < maxRetries`
loop.  `fuel` is `maxRetries - attemptIdx`; `attemptsMade`, `totalCost`
and `lastErr` are the loop variables; `delays` records each backoff
wait.  Cost is accumulated before the error check, exactly as in the
source (`totalCost += cost` on every attempt). -/
def OCRImageGo (outcomes : Nat → TransportResult) :
    Nat → Nat → Nat → ℚ → List Nat → Option AttemptError → OCRCallResult
  | 0, _, attemptsMade, totalCost, delays, lastErr =>
    ⟨"", totalCost, attemptsMade, some (.maxRetriesExceeded lastErr), delays⟩
  | fuel + 1, attemptIdx, attemptsMade, totalCost, delays, _lastErr =>
    let delays' := if 0 < attemptIdx then delays ++ [backoffMs attemptIdx] else delays
    match ocrImageOnce (outcomes attemptIdx) with
    | (text, cost, none) => ⟨text, totalCost + cost, attemptsMade + 1, none, delays'⟩
    | (_, cost, some e) =>
      if isTerminalAuthError e then
        ⟨"", totalCost + cost, attemptsMade + 1, some (.terminal e), delays'⟩
      else
        OCRImageGo outcomes fuel (attemptIdx + 1) (attemptsMade + 1)
          (totalCost + cost) delays' (some e)

/-- OCRImage: up to `maxRetries` attempts against the remote service,
driven by the per-attempt transport results `outcomes`. -/
def OCRImage (outcomes : Nat → TransportResult) : OCRCallResult :=
  OCRImageGo outcomes maxRetries 0 0 0 [] none

/-- The cost component one attempt returns. -/
def attemptCostOf (t : TransportResult) : ℚ := (ocrImageOnce t).2.1

/-- The error component one attempt returns. -/
def attemptErrOf (t : TransportResult) : Option AttemptError := (ocrImageOnce t).2.2

/-- The attempt fails but not with the terminal unauthorized signal. -/
def attemptFailsTransiently (t : TransportResult) : Prop :=
  ∃ e, attemptErrOf t = some e ∧ isTerminalAuthError e = false

/-! ### Retry-loop lemmas -/

lemma ocrImageGo_succ_success (o : Nat → TransportResult) (fuel i a : Nat) (c : ℚ)
    (d : List Nat) (l : Option AttemptError) (h : attemptErrOf (o i) = none) :
    OCRImageGo o (fuel + 1) i a c d l =
      ⟨(ocrImageOnce (o i)).1, c + attemptCostOf (o i), a + 1, none,
        if 0 < i then d ++ [backoffMs i] else d⟩ := by
  rcases hoc : ocrImageOnce (o i) with ⟨t, q, er⟩
  have her : er = none := by rw [attemptErrOf, hoc] at h; exact h
  subst her
  simp only [OCRImageGo, hoc, attemptCostOf]

lemma ocrImageGo_succ_fail (o : Nat → TransportResult) (fuel i a : Nat) (c : ℚ)
    (d : List Nat) (l : Option AttemptError) (e : AttemptError)
    (h : attemptErrOf (o i) = some e) (hterm : isTerminalAuthError e = false) :
    OCRImageGo o (fuel + 1) i a c d l =
      OCRImageGo o fuel (i + 1) (a + 1) (c + attemptCostOf (o i))
        (if 0 < i then d ++ [backoffMs i] else d) (some e) := by
  rcases hoc : ocrImageOnce (o i) with ⟨t, q, er⟩
  have her : er = some e := by rw [attemptErrOf, hoc] at h; exact h
  subst her
  simp only [OCRImageGo, hoc, attemptCostOf, hterm, Bool.false_eq_true, if_false]

lemma ocrImageGo_succ_auth (o : Nat → TransportResult) (fuel i a : Nat) (c : ℚ)
    (d : List Nat) (l : Option AttemptError) (e : AttemptError)
    (h : attemptErrOf (o i) = some e) (hterm : isTerminalAuthError e = true) :
    OCRImageGo o (fuel + 1) i a c d l =
      ⟨"", c + attemptCostOf (o i), a + 1, some (.terminal e),
        if 0 < i then d ++ [backoffMs i] else d⟩ := by
  rcases hoc : ocrImageOnce (o i) with ⟨t, q, er⟩
  have her : er = some e := by rw [attemptErrOf, hoc] at h; exact h
  subst her
  simp only [OCRImageGo, hoc, attemptCostOf, hterm, if_true]

/-- The loop's returned cost is the starting accumulator plus the sum of the
per-attempt costs over the attempts it makes. -/
lemma ocrImageGo_cost_sum (o : Nat → TransportResult) :
    ∀ (fuel i a : Nat) (c : ℚ) (d : List Nat) (l : Option AttemptError),
      ∃ n, (OCRImageGo o fuel i a c d l).attempts = a + n ∧
        (OCRImageGo o fuel i a c d l).totalCost =
          c + ((List.range n).map (fun j => attemptCostOf (o (i + j)))).sum := by
  intro fuel
  induction fuel with
  | zero =>
    intro i a c d l
    exact ⟨0, rfl, by simp [OCRImageGo]⟩
  | succ fuel ih =>
    intro i a c d l
    rcases her : attemptErrOf (o i) with _ | e
    · refine ⟨1, ?_, ?_⟩ <;>
        rw [ocrImageGo_succ_success o fuel i a c d l her] <;>
        simp [show List.range 1 = [0] from rfl]
    · by_cases hterm : isTerminalAuthError e = true
      · refine ⟨1, ?_, ?_⟩ <;>
          rw [ocrImageGo_succ_auth o fuel i a c d l e her hterm] <;>
          simp [show List.range 1 = [0] from rfl]
      · rw [ocrImageGo_succ_fail o fuel i a c d l e her
          (by simpa using hterm)]
        obtain ⟨n, hn, hc⟩ := ih (i + 1) (a + 1) (c + attemptCostOf (o i))
          (if 0 < i then d ++ [backoffMs i] else d) (some e)
        refine ⟨n + 1, by rw [hn]; omega, ?_⟩
        rw [hc, List.range_succ_eq_map, List.map_cons, List.map_map,
          List.sum_cons]
        have hshift : ∀ j : Nat, i + 1 + j = i + Nat.succ j := by intro j; omega
        simp only [Function.comp_def, hshift, Nat.add_zero]
        ring

/-- Reaching a terminal unauthorized failure after `k` transient failures
stops the loop at attempt `k + 1` with the terminal error. -/
lemma ocrImageGo_auth_stops (o : Nat → TransportResult) :
    ∀ (k fuel i a : Nat) (c : ℚ) (d : List Nat) (l : Option AttemptError)
      (e : AttemptError),
      k < fuel →
      (∀ j, j < k → attemptFailsTransiently (o (i + j))) →
      attemptErrOf (o (i + k)) = some e → isTerminalAuthError e = true →
      (OCRImageGo o fuel i a c d l).attempts = a + k + 1 ∧
      (OCRImageGo o fuel i a c d l).error = some (.terminal e) := by
  intro k
  induction k with
  | zero =>
    intro fuel i a c d l e hk _hprev he ht
    obtain ⟨f, rfl⟩ : ∃ f, fuel = f + 1 := ⟨fuel - 1, by omega⟩
    rw [ocrImageGo_succ_auth o f i a c d l e (by simpa using he) ht]
    exact ⟨rfl, rfl⟩
  | succ k ih =>
    intro fuel i a c d l e hk hprev he ht
    obtain ⟨f, rfl⟩ : ∃ f, fuel = f + 1 := ⟨fuel - 1, by omega⟩
    obtain ⟨e0, h0, ht0⟩ := hprev 0 (Nat.succ_pos k)
    rw [ocrImageGo_succ_fail o f i a c d l e0 (by simpa using h0) ht0]
    have hrec := ih f (i + 1) (a + 1) (c + attemptCostOf (o i))
      (if 0 < i then d ++ [backoffMs i] else d) (some e0) e (by omega)
      (fun j hj => by
        have := hprev (j + 1) (by omega)
        rwa [show i + (j + 1) = i + 1 + j by omega] at this)
      (by rwa [show i + 1 + k = i + (k + 1) by omega]) ht
    exact ⟨by rw [hrec.1]; omega, hrec.2⟩

/-! ### Claim theorems about the retry loop -/

/-- C1: the total cost returned by OCRImage equals the sum of the per-attempt
costs over all attempts made in that call (a failed attempt that produced no
usage data contributes zero); in particular, a call that fails transiently on
the first two attempts and succeeds on the third returns attemptCount 3 and a
cost equal to the sum of the three attempts' individual costs. -/
theorem ocrImage_cost_accumulates_across_attempts (o : Nat → TransportResult) :
    (OCRImage o).totalCost =
      ((List.range (OCRImage o).attempts).map (fun j => attemptCostOf (o j))).sum ∧
    (attemptFailsTransiently (o 0) → attemptFailsTransiently (o 1) →
      attemptErrOf (o 2) = none →
      (OCRImage o).attempts = 3 ∧
      (OCRImage o).totalCost =
        attemptCostOf (o 0) + attemptCostOf (o 1) + attemptCostOf (o 2)) := by
  constructor
  · obtain ⟨n, hn, hc⟩ := ocrImageGo_cost_sum o maxRetries 0 0 0 [] none
    have hattempts : (OCRImage o).attempts = n := by
      rw [OCRImage, hn]; omega
    rw [OCRImage, hattempts] at *
    rw [hc]
    simp
  · rintro ⟨e0, h0, ht0⟩ ⟨e1, h1, ht1⟩ h2
    have s1 : OCRImage o = OCRImageGo o (4 + 1) 0 0 0 [] none := rfl
    rw [s1, ocrImageGo_succ_fail o 4 0 0 0 [] none e0 h0 ht0]
    have s2 : OCRImageGo o 4 (0 + 1) (0 + 1) (0 + attemptCostOf (o 0))
        (if 0 < 0 then ([] : List Nat) ++ [backoffMs 0] else []) (some e0) =
        OCRImageGo o (3 + 1) 1 1 (0 + attemptCostOf (o 0)) [] (some e0) := rfl
    rw [s2, ocrImageGo_succ_fail o 3 1 1 (0 + attemptCostOf (o 0)) [] (some e0) e1 h1 ht1]
    have s3 : OCRImageGo o 3 (1 + 1) (1 + 1)
        (0 + attemptCostOf (o 0) + attemptCostOf (o 1))
        (if 0 < 1 then ([] : List Nat) ++ [backoffMs 1] else []) (some e1) =
        OCRImageGo o (2 + 1) 2 2 (0 + attemptCostOf (o 0) + attemptCostOf (o 1))
          [backoffMs 1] (some e1) := rfl
    rw [s3, ocrImageGo_succ_success o 2 2 2
      (0 + attemptCostOf (o 0) + attemptCostOf (o 1)) [backoffMs 1] (some e1) h2]
    exact ⟨rfl, by ring⟩

/-- Concrete run for the C1 witness: a structured API failure, a transport
failure, then a successful response with reported usage. -/
def c1Run : Nat → TransportResult := fun i =>
  if i = 0 then .apiFailure 500 "server error"
  else if i = 1 then .failure "timeout"
  else .response ⟨["Page one text"], ⟨1000, 500⟩⟩

/-- Witness for C1 at a concrete fail-fail-succeed run. -/
theorem ocrImage_cost_accumulates_witness :
    (OCRImage c1Run).attempts = 3 ∧
    (OCRImage c1Run).totalCost =
      attemptCostOf (c1Run 0) + attemptCostOf (c1Run 1) + attemptCostOf (c1Run 2) :=
  (ocrImage_cost_accumulates_across_attempts c1Run).2
    ⟨.apiError 500 "server error", rfl, rfl⟩
    ⟨.requestFailed "timeout", rfl, rfl⟩
    (by decide)

/-- C3 (as the code behaves): the backoff the code computes is
`max(2^(k-1) ms, 10 ms)` — a 10ms floor, not a cap — so a run whose first
four attempts all fail transiently waits the constant delays
[10, 10, 10, 10] ms; consecutive delays are equal, never strictly
increasing, contradicting the in-code comment "capped at 50ms". -/
theorem ocrImage_backoff_is_floor_not_cap :
    (OCRImage (fun _ => .failure "timeout")).delays =
      [backoffMs 1, backoffMs 2, backoffMs 3, backoffMs 4] ∧
    (OCRImage (fun _ => .failure "timeout")).delays = [10, 10, 10, 10] ∧
    (OCRImage (fun _ => .failure "timeout")).attempts = 5 ∧
    backoffMs 1 = backoffMs 2 := by
  refine ⟨?_, ?_, ?_, ?_⟩ <;> decide

/-- C6: an attempt that fails with the remote service's unauthorized signal
(an APIError with HTTP status 401) is terminal: the call returns at that very
attempt with that error, and in particular an unauthorized first attempt
yields exactly 1 attempt, not 5. -/
theorem ocrImage_unauthorized_is_terminal (o : Nat → TransportResult)
    (k : Nat) (e : AttemptError) (hk : k < maxRetries)
    (hprev : ∀ j, j < k → attemptFailsTransiently (o j))
    (he : attemptErrOf (o k) = some e) (ht : isTerminalAuthError e = true) :
    (OCRImage o).attempts = k + 1 ∧
    (OCRImage o).error = some (.terminal e) := by
  have h := ocrImageGo_auth_stops o k maxRetries 0 0 0 [] none e hk
    (fun j hj => by simpa using hprev j hj) (by simpa using he) ht
  simpa using h

/-- Witness for C6: a credential the service reports 401 for on the first
attempt causes exactly 1 attempt. -/
theorem ocrImage_unauthorized_is_terminal_witness :
    (OCRImage (fun _ => .apiFailure 401 "invalid key")).attempts = 1 ∧
    (OCRImage (fun _ => .apiFailure 401 "invalid key")).error =
      some (.terminal (.apiError 401 "invalid key")) :=
  ocrImage_unauthorized_is_terminal (fun _ => .apiFailure 401 "invalid key") 0
    (.apiError 401 "invalid key") (by decide)
    (fun j hj => absurd hj (by omega)) rfl rfl

/-- The concrete refusal response used as the C10 witness: refused text with
nonzero reported usage. -/
def refusalResp : ChatResponse :=
  ⟨["I'm sorry, I can't transcribe the text from the image."], ⟨100, 50⟩⟩

/-- C10: a response the refusal heuristic classifies as a refusal makes the
single attempt return zero cost (the refusal check runs before the cost
computation), so a refusal attempt contributes nothing to OCRImage's
accumulated total even when the service reported token usage for it. -/
theorem refusal_attempt_costs_zero (r : ChatResponse) (text : String)
    (hhead : r.choices.head? = some text)
    (href : isRefusalResponse text = true) :
    (ocrImageOnce (.response r)).2.1 = 0 ∧
    ∀ (o : Nat → TransportResult) (k : Nat), o k = .response r →
      (OCRImage o).totalCost =
        ((List.range (OCRImage o).attempts).map
          (fun j => if j = k then 0 else attemptCostOf (o j))).sum := by
  have honce : ocrImageOnce (.response r) = ("", 0, some (.refusal text)) := by
    simp [ocrImageOnce, hhead, href]
  refine ⟨by rw [honce], ?_⟩
  intro o k hk
  obtain ⟨n, hn, hc⟩ := ocrImageGo_cost_sum o maxRetries 0 0 0 [] none
  have hattempts : (OCRImage o).attempts = n := by rw [OCRImage, hn]; omega
  have hcost : (OCRImage o).totalCost =
      ((List.range n).map (fun j => attemptCostOf (o j))).sum := by
    rw [OCRImage, hc]; simp
  rw [hattempts, hcost]
  congr 1
  apply List.map_congr_left
  intro j _
  by_cases hjk : j = k
  · subst hjk
    rw [if_pos rfl, attemptCostOf, hk, honce]
  · rw [if_neg hjk]

/-- Witness for C10: the concrete refusal run (every attempt refused, usage
reported) contributes zero at attempt 0. -/
theorem refusal_attempt_costs_zero_witness :
    (ocrImageOnce (.response refusalResp)).2.1 = 0 ∧
    (OCRImage (fun _ => .response refusalResp)).totalCost =
      ((List.range (OCRImage (fun _ => .response refusalResp)).attempts).map
        (fun j => if j = 0 then 0
          else attemptCostOf ((fun _ => TransportResult.response refusalResp) j))).sum :=
  ⟨(refusal_attempt_costs_zero refusalResp
      "I'm sorry, I can't transcribe the text from the image." rfl (by decide)).1,
   (refusal_attempt_costs_zero refusalResp
      "I'm sorry, I can't transcribe the text from the image." rfl (by decide)).2
      (fun _ => .response refusalResp) 0 rfl⟩

/-! ### Image resizer (resizer.go) -/

/-- The decoded image as the resizer consumes it: its bounds.  The
resizer fixes the destination bounds before the resampling step, so
pixel content plays no role in any dimension claim and is abstracted. -/
structure GoImage where
  width : Nat
  height : Nat
deriving DecidableEq

/-- ResizeImage's failure modes. -/
inductive ResizeError
  | invalidDimension
  | decodeFailure
  | encodeFailure
deriving DecidableEq

/-- The dimension computation of ResizeImage for an image that needs
scaling: landscape pins the width to `maxDimension` and computes the
height by integer division, portrait or square pins the height. -/
def newDimensions (width height maxDimension : Nat) : Nat × Nat :=
  if width > height then (maxDimension, height * maxDimension / width)
  else (width * maxDimension / height, maxDimension)

/-- ResizeImage, parameterized by the codec collaborators: `decodeImage`
is the webp/png/jpeg/gif decoding chain and `encodeImage` the re-encoder
for the detected format (both live in external imaging libraries).
Rejects a non-positive `maxDimension`, fails on undecodable data, and
returns the original bytes unchanged when the longest dimension is
already within `maxDimension`; otherwise the destination image is
created with the computed dimensions and re-encoded. -/
def ResizeImage (decodeImage : List Nat → Option (GoImage × String))
    (encodeImage : GoImage → String → Option (List Nat))
    (imageData : List Nat) (maxDimension : Int) :
    Except ResizeError (List Nat) :=
  if maxDimension ≤ 0 then .error .invalidDimension
  else
    match decodeImage imageData with
    | none => .error .decodeFailure
    | some (img, format) =>
      let longestDim := if img.width < img.height then img.height else img.width
      if longestDim ≤ maxDimension.toNat then .ok imageData
      else
        let dims := newDimensions img.width img.height maxDimension.toNat
        match encodeImage ⟨dims.1, dims.2⟩ format with
        | some bytes => .ok bytes
        | none => .error .encodeFailure

/-- C7: for every decodable image whose longest side is at most a positive
`maxDimension`, ResizeImage returns the original input bytes unchanged —
byte-identical, with no re-encode (the result does not depend on the
encoder at all). -/
theorem resizeImage_small_image_is_identity
    (decodeImage : List Nat → Option (GoImage × String))
    (encodeImage : GoImage → String → Option (List Nat))
    (imageData : List Nat) (maxDimension : Int) (img : GoImage) (format : String)
    (hpos : 0 < maxDimension)
    (hdec : decodeImage imageData = some (img, format))
    (hsmall : max img.width img.height ≤ maxDimension.toNat) :
    ResizeImage decodeImage encodeImage imageData maxDimension = .ok imageData := by
  have hlong : (if img.width < img.height then img.height else img.width) ≤
      maxDimension.toNat := by
    by_cases h : img.width < img.height
    · simpa [h] using le_trans (le_max_right img.width img.height) hsmall
    · simpa [h] using le_trans (le_max_left img.width img.height) hsmall
  unfold ResizeImage
  rw [if_neg (by omega), hdec]
  simp only [hlong, if_true]

/-- A decoder stub for the resizer witnesses: every byte string decodes to
a 570×562 jpeg. -/
def smallDecode : List Nat → Option (GoImage × String) := fun _ =>
  some (⟨570, 562⟩, "jpeg")

/-- An encoder stub that serializes only the destination dimensions, making
them observable in the result bytes. -/
def dimsEncode : GoImage → String → Option (List Nat) := fun dst _ =>
  some [dst.width, dst.height]

/-- Witness for C7: a 570×562 image with cap 1500 comes back byte-identical. -/
theorem resizeImage_small_image_is_identity_witness :
    ResizeImage smallDecode dimsEncode [7, 8, 9] 1500 = .ok [7, 8, 9] :=
  resizeImage_small_image_is_identity smallDecode dimsEncode [7, 8, 9] 1500
    ⟨570, 562⟩ "jpeg" (by decide) rfl (by decide)

/-- A decoder stub decoding everything to a 4032×2707 jpeg. -/
def bigDecode : List Nat → Option (GoImage × String) := fun _ =>
  some (⟨4032, 2707⟩, "jpeg")

/-- C4 counterexample: at 4032×2707 with cap 1500 the code computes the
short axis as the integer-division floor (2707 * 1500) / 4032 = 1007, not
the claimed 1006; the full resize path hands 1500×1007 to the encoder.
Also: at 3000×1999 with cap 1500 the code yields 999 where
round(1999 * 1500 / 3000) = round(999.5) = 1000, so the claimed round()
formula does not describe the code either. -/
theorem resizeImage_4032x2707_is_not_1500x1006 :
    newDimensions 4032 2707 1500 = (1500, 1007) ∧
    newDimensions 4032 2707 1500 ≠ (1500, 1006) ∧
    ResizeImage bigDecode dimsEncode [0] 1500 = .ok [1500, 1007] ∧
    newDimensions 3000 1999 1500 = (1500, 999) ∧
    round ((1999 * 1500 : ℚ) / 3000) = (1000 : ℤ) := by
  refine ⟨by decide, by decide, by rfl, by decide, ?_⟩
  norm_num [round_eq]

/-- C4 (amended): for every decodable image whose longest side exceeds a
positive cap, ResizeImage re-encodes an image whose longest axis equals the
cap exactly and whose other axis is the integer-division floor
`otherOriginalDimension * cap / longestOriginalDimension` (floor, not
round); in particular a 4032×2707 image with cap 1500 yields exactly
1500×1007 (not 1500×1006). -/
theorem resizeImage_scaled_dimensions
    (decodeImage : List Nat → Option (GoImage × String))
    (encodeImage : GoImage → String → Option (List Nat))
    (imageData : List Nat) (maxDimension : Int) (img : GoImage) (format : String)
    (hpos : 0 < maxDimension)
    (hdec : decodeImage imageData = some (img, format))
    (hw : 0 < img.width) (hh : 0 < img.height)
    (hbig : maxDimension.toNat < max img.width img.height) :
    ResizeImage decodeImage encodeImage imageData maxDimension =
      (match encodeImage
          ⟨(newDimensions img.width img.height maxDimension.toNat).1,
           (newDimensions img.width img.height maxDimension.toNat).2⟩ format with
       | some bytes => .ok bytes
       | none => .error .encodeFailure) ∧
    max (newDimensions img.width img.height maxDimension.toNat).1
        (newDimensions img.width img.height maxDimension.toNat).2 =
      maxDimension.toNat ∧
    min (newDimensions img.width img.height maxDimension.toNat).1
        (newDimensions img.width img.height maxDimension.toNat).2 =
      min img.width img.height * maxDimension.toNat /
        max img.width img.height ∧
    newDimensions 4032 2707 1500 = (1500, 1007) := by
  have hm : 0 < maxDimension.toNat := by omega
  have hlong : ¬ (if img.width < img.height then img.height else img.width) ≤
      maxDimension.toNat := by
    by_cases h : img.width < img.height
    · simp only [h, if_true]
      have : max img.width img.height = img.height := max_eq_right (le_of_lt h)
      omega
    · simp only [h, if_false]
      have : max img.width img.height = img.width :=
        max_eq_left (by omega)
      omega
  refine ⟨?_, ?_⟩
  · unfold ResizeImage
    rw [if_neg (by omega), hdec]
    simp only [hlong, if_false]
  · rcases lt_or_ge img.height img.width with hcase | hcase
    · -- landscape: width > height
      have hnd : newDimensions img.width img.height maxDimension.toNat =
          (maxDimension.toNat, img.height * maxDimension.toNat / img.width) := by
        rw [newDimensions, if_pos hcase]
      have hlt : img.height * maxDimension.toNat / img.width <
          maxDimension.toNat := by
        rw [Nat.div_lt_iff_lt_mul (by omega)]
        calc img.height * maxDimension.toNat
            < img.width * maxDimension.toNat := by
              exact (Nat.mul_lt_mul_right hm).mpr hcase
          _ = maxDimension.toNat * img.width := Nat.mul_comm _ _
      refine ⟨?_, ?_, by decide⟩
      · rw [hnd]; exact max_eq_left (le_of_lt hlt)
      · rw [hnd]
        have h1 : min img.width img.height = img.height :=
          min_eq_right (le_of_lt hcase)
        have h2 : max img.width img.height = img.width :=
          max_eq_left (le_of_lt hcase)
        rw [h1, h2]
        exact min_eq_right (le_of_lt hlt)
    · -- portrait or square: height ≥ width
      have hnd : newDimensions img.width img.height maxDimension.toNat =
          (img.width * maxDimension.toNat / img.height, maxDimension.toNat) := by
        rw [newDimensions, if_neg (by omega)]
      have hle : img.width * maxDimension.toNat / img.height ≤
          maxDimension.toNat := by
        calc img.width * maxDimension.toNat / img.height
            ≤ img.height * maxDimension.toNat / img.height :=
              Nat.div_le_div_right (Nat.mul_le_mul_right _ hcase)
          _ = maxDimension.toNat := Nat.mul_div_cancel_left _ hh
      refine ⟨?_, ?_, by decide⟩
      · rw [hnd]; exact max_eq_right hle
      · rw [hnd]
        have h1 : min img.width img.height = img.width := min_eq_left hcase
        have h2 : max img.width img.height = img.height := max_eq_right hcase
        rw [h1, h2]
        exact min_eq_left hle

/-- Witness for the amended C4 at the concrete 4032×2707 image with cap
1500: the encoder receives exactly 1500×1007. -/
theorem resizeImage_scaled_dimensions_witness :
    ResizeImage bigDecode dimsEncode [0] 1500 =
      (match dimsEncode
          ⟨(newDimensions 4032 2707 (1500 : Int).toNat).1,
           (newDimensions 4032 2707 (1500 : Int).toNat).2⟩ "jpeg" with
       | some bytes => .ok bytes
       | none => .error .encodeFailure) ∧
    max (newDimensions 4032 2707 (1500 : Int).toNat).1
        (newDimensions 4032 2707 (1500 : Int).toNat).2 = (1500 : Int).toNat ∧
    min (newDimensions 4032 2707 (1500 : Int).toNat).1
        (newDimensions 4032 2707 (1500 : Int).toNat).2 =
      min 4032 2707 * (1500 : Int).toNat / max 4032 2707 ∧
    newDimensions 4032 2707 1500 = (1500, 1007) :=
  resizeImage_scaled_dimensions bigDecode dimsEncode [0] 1500 ⟨4032, 2707⟩
    "jpeg" (by decide) rfl (by decide) (by decide) (by decide)

/-! ### Date extraction (app.go extractDate)

The three regular expressions are translated into executable matchers.
A matcher returns, for a fixed starting position, the list of consumed
lengths it can match there, in backtracking preference order (greedy
first) — exactly the leftmost-first semantics Go's regexp package gives
these patterns. -/

/-- Candidate consumed lengths at one position, most preferred first. -/
abbrev Matcher := List Char → List Nat

/-- A character class repeated greedily, at least once (`\w+`, `\s+`). -/
def classPlus (p : Char → Bool) : Matcher := fun s =>
  let r := (s.takeWhile p).length
  (List.range r).map (fun i => r - i)

/-- A character class repeated greedily, between `lo` and `hi` times
(`\d{1,2}`, `\d{2,4}`, `\d{4}`). -/
def classRep (p : Char → Bool) (lo hi : Nat) : Matcher := fun s =>
  let r := min (s.takeWhile p).length hi
  (((List.range (r + 1)).map (fun i => r - i)).filter (fun n => lo ≤ n))

/-- A single literal character, case-insensitively (the `(?i)` flag). -/
def litChar (c : Char) : Matcher := fun s =>
  match s with
  | [] => []
  | a :: _ => if a.toLower = c.toLower then [1] else []

/-- Sequencing, preferring the first matcher's most preferred candidate. -/
def seqMatch (m1 m2 : Matcher) : Matcher := fun s =>
  (m1 s).flatMap (fun n => (m2 (s.drop n)).map (fun k => n + k))

/-- A literal character sequence. -/
def litSeq : List Char → Matcher
  | [] => fun _ => [0]
  | c :: cs => seqMatch (litChar c) (litSeq cs)

/-- A greedy optional (`?`): prefer consuming the element. -/
def optMatch (m : Matcher) : Matcher := fun s => m s ++ [0]

/-- Go regexp `\w`: `[0-9A-Za-z_]`. -/
def isWordChar (c : Char) : Bool := c.isAlphanum || c = '_'

/-- Go regexp `\d`: `[0-9]`. -/
def isDigitChar (c : Char) : Bool := c.isDigit

/-- Go regexp `\s`: `[\t\n\f\r ]`. -/
def isSpaceChar (c : Char) : Bool :=
  c = ' ' || c = '\t' || c = '\n' || c = '\x0c' || c = '\r'

/-- The slash-or-dash character class of the numeric date pattern. -/
def slashDash : Matcher := fun s =>
  match s with
  | [] => []
  | a :: _ => if a = '/' || a = '-' then [1] else []

/-- `\w+day,?\s+` — the weekday prefix group. -/
def weekdayPart : Matcher :=
  seqMatch (classPlus isWordChar)
    (seqMatch (litSeq "day".data)
      (seqMatch (optMatch (litChar ',')) (classPlus isSpaceChar)))

/-- `\w+\s+\d{1,2},?\s+\d{4}` — the long-form date body. -/
def longFormDate : Matcher :=
  seqMatch (classPlus isWordChar)
    (seqMatch (classPlus isSpaceChar)
      (seqMatch (classRep isDigitChar 1 2)
        (seqMatch (optMatch (litChar ','))
          (seqMatch (classPlus isSpaceChar) (classRep isDigitChar 4 4)))))

/-- Pattern 1: `(?i)(\w+day,?\s+)?(\w+\s+\d{1,2},?\s+\d{4})`. -/
def datePattern1 : Matcher := seqMatch (optMatch weekdayPart) longFormDate

/-- Pattern 2, the slash- or dash-separated numeric date:
d{1,2}, slash or dash, d{1,2}, slash or dash, d{2,4}, case-insensitive. -/
def datePattern2 : Matcher :=
  seqMatch (classRep isDigitChar 1 2)
    (seqMatch slashDash
      (seqMatch (classRep isDigitChar 1 2)
        (seqMatch slashDash (classRep isDigitChar 2 4))))

/-- Pattern 3: `(?i)(\w+\s+\d{1,2},?\s+\d{4})`. -/
def datePattern3 : Matcher := longFormDate

/-- The ordered `datePatterns` slice of extractDate. -/
def datePatterns : List Matcher := [datePattern1, datePattern2, datePattern3]

/-- The scan of regexp.FindString: try each start position left to right,
return the most preferred match at the leftmost matching position. -/
def findFrom (m : Matcher) : List Char → Option (List Char)
  | [] =>
    match (m []).head? with
    | some n => some (([] : List Char).take n)
    | none => none
  | c :: rest =>
    match (m (c :: rest)).head? with
    | some n => some ((c :: rest).take n)
    | none => findFrom m rest

/-- regexp.FindString: the leftmost match, or "" when there is none. -/
def findString (m : Matcher) (s : List Char) : List Char :=
  match findFrom m s with
  | some cs => cs
  | none => []

/-- The inner pattern loop of extractDate: the first pattern producing a
non-empty match on this line wins. -/
def matchLine : List Matcher → List Char → List Char
  | [], _ => []
  | p :: ps, line =>
    let m := findString p line
    if m ≠ [] then m else matchLine ps line

/-- strings.Split(text, "\n"). -/
def splitLines : List Char → List (List Char)
  | [] => [[]]
  | c :: rest =>
    if c = '\n' then [] :: splitLines rest
    else
      match splitLines rest with
      | [] => [[c]]
      | l :: ls => (c :: l) :: ls

/-- The `for i := 0; i < len(lines) && i < 5; i++` loop of extractDate:
each raw line — blank or not — consumes one of the 5 slots; a blank line
(after trimming) is skipped, and the first pattern match on the first
non-blank matching line is returned. -/
def extractDateGo : List (List Char) → Nat → List Char
  | [], _ => []
  | _ :: _, 0 => []
  | l :: rest, fuel + 1 =>
    let line := trimChars l
    if line = [] then extractDateGo rest fuel
    else
      let m := matchLine datePatterns line
      if m ≠ [] then m else extractDateGo rest fuel

/-- extractDate: scan the first 5 raw lines of the text for a date. -/
def extractDate (text : List Char) : List Char :=
  extractDateGo (splitLines text) 5

/-- The scan never looks past its fuel: only the first `fuel` raw lines
matter. -/
lemma extractDateGo_take (fuel : Nat) :
    ∀ lines : List (List Char),
      extractDateGo lines fuel = extractDateGo (lines.take fuel) fuel := by
  induction fuel with
  | zero =>
    intro lines
    cases lines <;> rfl
  | succ fuel ih =>
    intro lines
    cases lines with
    | nil => rfl
    | cons l rest =>
      rw [List.take_succ_cons]
      show extractDateGo (l :: rest) (fuel + 1) =
        extractDateGo (l :: rest.take fuel) (fuel + 1)
      rw [extractDateGo, extractDateGo]
      by_cases hblank : trimChars l = []
      · simp only [hblank, if_pos rfl]
        exact ih rest
      · simp only [if_neg hblank]
        by_cases hm : matchLine datePatterns (trimChars l) ≠ []
        · simp only [if_pos hm]
        · simp only [if_neg hm]
          exact ih rest

/-- If every raw line before index `j` is blank or unmatched, line `j` is
non-blank and matched, and `j` is within the fuel, the scan returns line
`j`'s first pattern match. -/
lemma extractDateGo_first_match :
    ∀ (j fuel : Nat) (lines : List (List Char)), j < fuel → j < lines.length →
      (∀ i, i < j → trimChars (lines.getD i []) = [] ∨
        matchLine datePatterns (trimChars (lines.getD i [])) = []) →
      trimChars (lines.getD j []) ≠ [] →
      matchLine datePatterns (trimChars (lines.getD j [])) ≠ [] →
      extractDateGo lines fuel =
        matchLine datePatterns (trimChars (lines.getD j [])) := by
  intro j
  induction j with
  | zero =>
    intro fuel lines hfuel hlen _hprev hblank hmatch
    obtain ⟨f, rfl⟩ : ∃ f, fuel = f + 1 := ⟨fuel - 1, by omega⟩
    obtain ⟨l, rest, rfl⟩ : ∃ l rest, lines = l :: rest := by
      cases lines with
      | nil => simp at hlen
      | cons l rest => exact ⟨l, rest, rfl⟩
    simp only [List.getD_cons_zero] at hblank hmatch ⊢
    rw [extractDateGo]
    simp only [if_neg hblank, if_pos hmatch]
  | succ j ih =>
    intro fuel lines hfuel hlen hprev hblank hmatch
    obtain ⟨f, rfl⟩ : ∃ f, fuel = f + 1 := ⟨fuel - 1, by omega⟩
    obtain ⟨l, rest, rfl⟩ : ∃ l rest, lines = l :: rest := by
      cases lines with
      | nil => simp at hlen
      | cons l rest => exact ⟨l, rest, rfl⟩
    simp only [List.getD_cons_succ] at hblank hmatch ⊢
    have hnext : extractDateGo rest f =
        matchLine datePatterns (trimChars (rest.getD j [])) := by
      refine ih f rest (by omega) (by simp at hlen; omega) ?_ hblank hmatch
      intro i hi
      have := hprev (i + 1) (by omega)
      simpa using this
    rw [extractDateGo]
    rcases hprev 0 (by omega) with h0 | h0 <;>
      simp only [List.getD_cons_zero] at h0
    · simp only [h0, if_pos rfl]
      exact hnext
    · by_cases hb : trimChars l = []
      · simp only [hb, if_pos rfl]
        exact hnext
      · simp only [if_neg hb, h0, ne_eq, not_true_eq_false, if_false]
        exact hnext

/-- C5 counterexample: the transcription whose first 5 raw lines are blank
and whose 6th line — its first non-blank line — is "January 1, 2024"
yields no date at all, although that line is date-bearing (the long-form
pattern matches it in full) and is the first of the non-blank lines. -/
theorem extractDate_misses_date_pushed_past_fifth_raw_line :
    extractDate "\n\n\n\n\nJanuary 1, 2024".data = [] ∧
    matchLine datePatterns
      (trimChars "January 1, 2024".data) = "January 1, 2024".data ∧
    (splitLines "\n\n\n\n\nJanuary 1, 2024".data).getD 5 [] =
      "January 1, 2024".data ∧
    (∀ i, i < 5 →
      trimChars ((splitLines "\n\n\n\n\nJanuary 1, 2024".data).getD i []) = []) := by
  refine ⟨by decide, by decide, by decide, by decide⟩

/-- C5 (amended): date extraction scans only the first 5 raw lines of the
transcription; blank lines among them are skipped but still consume one of
the 5 slots (so blank lines can push a date line out of range); on the
first non-blank line among those 5 where any of the ordered patterns
matches, the first matching pattern wins and no later line is checked. -/
theorem extractDate_first_five_raw_lines (text : List Char) (j : Nat)
    (hj5 : j < 5) (hjlen : j < (splitLines text).length)
    (hprev : ∀ i, i < j →
      trimChars ((splitLines text).getD i []) = [] ∨
      matchLine datePatterns (trimChars ((splitLines text).getD i [])) = [])
    (hblank : trimChars ((splitLines text).getD j []) ≠ [])
    (hmatch : matchLine datePatterns
      (trimChars ((splitLines text).getD j [])) ≠ []) :
    extractDate text =
      matchLine datePatterns (trimChars ((splitLines text).getD j [])) ∧
    ∀ lines2 : List (List Char), (splitLines text).take 5 = lines2.take 5 →
      extractDateGo lines2 5 = extractDate text := by
  constructor
  · exact extractDateGo_first_match j 5 (splitLines text) hj5 hjlen hprev
      hblank hmatch
  · intro lines2 htake
    rw [extractDate, extractDateGo_take 5 lines2, ← htake,
      ← extractDateGo_take 5 (splitLines text)]

/-- Witness for the amended C5: a blank first line, the date on raw line
index 1, and an arbitrary continuation. -/
theorem extractDate_first_five_raw_lines_witness :
    extractDate " \nJanuary 1, 2024\nmore text".data =
      matchLine datePatterns
        (trimChars ((splitLines " \nJanuary 1, 2024\nmore text".data).getD 1 [])) ∧
    ∀ lines2 : List (List Char),
      (splitLines " \nJanuary 1, 2024\nmore text".data).take 5 = lines2.take 5 →
      extractDateGo lines2 5 = extractDate " \nJanuary 1, 2024\nmore text".data :=
  extractDate_first_five_raw_lines " \nJanuary 1, 2024\nmore text".data 1
    (by decide) (by decide)
    (by intro i hi; interval_cases i <;> exact Or.inl (by decide))
    (by decide) (by decide)

/-! ### Output formatting (app.go formatOutput) -/

/-- The result of processing a single image (ports.go OCRResult). -/
structure OCRResult where
  ImageName : String
  Date : String
  Text : String
  Cost : ℚ
  OCRAttempts : Nat
deriving DecidableEq

/-- formatOutput's loop over the sorted results, carrying the `lastDate`
variable: a horizontal rule, the image name, a date line only when the
chosen date is non-empty, then the transcript; an empty extracted date is
replaced by the carried date, a non-empty one becomes the new carried
date. -/
def formatOutputGo : List OCRResult → String → String
  | [], _ => ""
  | r :: rest, lastDate =>
    let date := if r.Date = "" then lastDate else r.Date
    "---\n" ++ r.ImageName ++ "\n" ++
      (if date ≠ "" then date ++ "\n" else "") ++
      r.Text ++ "\n" ++ formatOutputGo rest date

/-- formatOutput: format the results into the final output string. -/
def formatOutput (results : List OCRResult) (startDate : String) : String :=
  formatOutputGo results startDate

/-- Follows the spec's words (the date-carry-forward contract): the dates
emitted for the results, one per result — a non-empty extracted date is
emitted and becomes the new last-known date, an empty one re-emits the
current last-known date, which starts as `startDate`. -/
def specEmittedDates : List String → String → List String
  | [], _ => []
  | d :: rest, lastKnown =>
    let emitted := if d = "" then lastKnown else d
    emitted :: specEmittedDates rest emitted

/-- One rendered transcript entry, with an explicitly given date (whose
line is omitted when the date is empty). -/
def renderEntry (r : OCRResult) (date : String) : String :=
  "---\n" ++ r.ImageName ++ "\n" ++
    (if date ≠ "" then date ++ "\n" else "") ++ r.Text ++ "\n"

/-- Concatenation of rendered entries. -/
def concatStrings : List String → String
  | [] => ""
  | s :: rest => s ++ concatStrings rest

/-- C8: formatOutput emits exactly the dates the carry-forward contract
prescribes — the output is the concatenation of the entries rendered with
`specEmittedDates` — and on per-result dates
["Mon, Jan 1, 2024", "", "Tue, Jan 2, 2024"] with no start date the
emitted dates are
["Mon, Jan 1, 2024", "Mon, Jan 1, 2024", "Tue, Jan 2, 2024"]. -/
theorem formatOutput_carries_dates_forward :
    (∀ (results : List OCRResult) (startDate : String),
      formatOutput results startDate =
        concatStrings (List.zipWith renderEntry results
          (specEmittedDates (results.map OCRResult.Date) startDate))) ∧
    specEmittedDates ["Mon, Jan 1, 2024", "", "Tue, Jan 2, 2024"] "" =
      ["Mon, Jan 1, 2024", "Mon, Jan 1, 2024", "Tue, Jan 2, 2024"] := by
  constructor
  · intro results
    induction results with
    | nil => intro startDate; rfl
    | cons r rest ih =>
      intro startDate
      simp only [formatOutput] at ih ⊢
      rw [formatOutputGo, List.map_cons, specEmittedDates, List.zipWith_cons_cons,
        concatStrings, ← ih, renderEntry]
  · decide

/-! ### Orchestrator (ProcessImages) -/

/-- Run-level errors of ProcessImages. -/
inductive RunError
  | invalidCredential (message : String)
  | noImagesFound
  | processingFailed (message : String)
deriving DecidableEq

/-- The aggregate statistics ProcessImages returns. -/
structure ProcessImageResults where
  TotalImagesProcessed : Nat
  TotalCost : ℚ
  CostPerImage : ℚ
  TotalOCRAttempts : Nat
  OCRAttemptsPerImage : ℚ
deriving DecidableEq

/-- The observable side effects of a run, in order. -/
inductive RunAction
  | validateKey
  | listImages
  | loadImage (name : String)
  | resizeImage (name : String)
  | recognizeImage (name : String)
  | saveOutput (output : String)
deriving DecidableEq

/-- What the collaborators answer during one run: credential validation,
directory listing, and the per-image load / resize / recognition
outcomes, plus the save outcome. -/
structure RunEnv where
  validateResult : Option String
  listResult : Except String (List String)
  loadResult : String → Except String (List Nat)
  resizeResult : String → Except String (List Nat)
  ocrResult : String → Except String (String × ℚ × Nat)
  saveResult : Option String

/-- The app configuration (AppConfig). -/
structure AppConfig where
  Concurrency : Int
  StartDate : String

/-- Modelled from the spec: the per-image worker body (processImage of the
current app.go revision, which is not in the repository slice — only its
interface, callers and tests are).  Load, resize, recognize in that
order; a failure at any stage is captured into that image's result as
error text in place of a transcription and stops that image's pipeline;
on success the date is extracted from the transcription.  Returns the
result together with the actions performed. -/
def processImageModel (env : RunEnv) (name : String) :
    OCRResult × List RunAction :=
  match env.loadResult name with
  | .error e =>
    (⟨name, "", "Error loading image: " ++ e, 0, 0⟩, [.loadImage name])
  | .ok _ =>
    match env.resizeResult name with
    | .error e =>
      (⟨name, "", "Error resizing image: " ++ e, 0, 0⟩,
       [.loadImage name, .resizeImage name])
    | .ok _ =>
      match env.ocrResult name with
      | .error e =>
        (⟨name, "", "Error processing image: " ++ e, 0, 0⟩,
         [.loadImage name, .resizeImage name, .recognizeImage name])
      | .ok (text, cost, attempts) =>
        (⟨name, String.mk (extractDate text.data), text, cost, attempts⟩,
         [.loadImage name, .resizeImage name, .recognizeImage name])

/-- Insertion of one result into a name-sorted result list. -/
def insertByName (r : OCRResult) : List OCRResult → List OCRResult
  | [] => [r]
  | x :: xs =>
    if r.ImageName ≤ x.ImageName then r :: x :: xs else x :: insertByName r xs

/-- The `sort.Slice(results, by ImageName)` step restoring listing order
after parallel collection, modelled as insertion sort. -/
def sortByName : List OCRResult → List OCRResult
  | [] => []
  | r :: rest => insertByName r (sortByName rest)

/-- Modelled from the spec: ProcessImages of the current app.go revision
(the one command.go and app_test.go bind to — NewApp taking a Resizer and
a summary with attempt totals), which is not in the repository slice.
Per the spec it "validates the recognition credential once, before doing
any work; failure here aborts the entire run with no partial output",
then lists the images (an error or an empty listing is NoImagesFound),
processes every image, sorts the results by name, formats them with the
date carry-forward, saves the output (a save failure surfaces as
ProcessingFailed), and returns the aggregate totals.  The bounded
parallel dispatch is modelled by collecting the per-image results in
listing order — the sort makes scheduling order unobservable in the
returned value — with the run's actions recorded in order. -/
def ProcessImages (env : RunEnv) (config : AppConfig) :
    Except RunError ProcessImageResults × List RunAction :=
  match env.validateResult with
  | some e => (.error (.invalidCredential e), [.validateKey])
  | none =>
    match env.listResult with
    | .error _ => (.error .noImagesFound, [.validateKey, .listImages])
    | .ok [] => (.error .noImagesFound, [.validateKey, .listImages])
    | .ok names =>
      let perImage := names.map (processImageModel env)
      let results := sortByName (perImage.map Prod.fst)
      let output := formatOutput results config.StartDate
      let trace := RunAction.validateKey :: RunAction.listImages ::
        ((perImage.map Prod.snd).flatten ++ [RunAction.saveOutput output])
      match env.saveResult with
      | some e => (.error (.processingFailed e), trace)
      | none =>
        let totalImages := results.length
        let totalCost := (results.map OCRResult.Cost).sum
        let totalAttempts := (results.map OCRResult.OCRAttempts).sum
        (.ok ⟨totalImages, totalCost,
          if 0 < totalImages then totalCost / totalImages else 0,
          totalAttempts,
          if 0 < totalImages then (totalAttempts : ℚ) / totalImages else 0⟩,
         trace)

lemma validateKey_not_in_processImageModel (env : RunEnv) (name : String) :
    RunAction.validateKey ∉ (processImageModel env name).2 := by
  unfold processImageModel
  rcases env.loadResult name with e | b
  · simp
  · rcases env.resizeResult name with e | b2
    · simp
    · rcases env.ocrResult name with e | ⟨t, c, a⟩ <;> simp

/-- C2 (spec-modelled): ProcessImages validates the recognition credential
exactly once, before doing any other work — the validation is the first
recorded action of every run and occurs exactly once in its trace — and
if that upfront validation fails, the run aborts with the invalid
credential error having performed nothing else: no listing, no loading,
no resizing, no recognition, and no output written. -/
theorem processImages_validates_credential_first (env : RunEnv)
    (config : AppConfig) :
    (ProcessImages env config).2.head? = some .validateKey ∧
    (ProcessImages env config).2.count .validateKey = 1 ∧
    (∀ e, env.validateResult = some e →
      ProcessImages env config =
        (.error (.invalidCredential e), [.validateKey])) := by
  obtain ⟨v, lst, ld, rs, oc, sv⟩ := env
  rcases v with _ | e
  · rcases lst with el | names
    · exact ⟨rfl, rfl, fun e h => by cases h⟩
    · rcases names with _ | ⟨n, ns⟩
      · exact ⟨rfl, rfl, fun e h => by cases h⟩
      · have hnotmem : RunAction.validateKey ∉
            (RunAction.listImages ::
              ((((n :: ns).map (processImageModel
                  ⟨none, .ok (n :: ns), ld, rs, oc, sv⟩)).map Prod.snd).flatten ++
                [RunAction.saveOutput (formatOutput
                  (sortByName (((n :: ns).map (processImageModel
                    ⟨none, .ok (n :: ns), ld, rs, oc, sv⟩)).map Prod.fst))
                  config.StartDate)])) := by
          intro hmem
          rcases List.mem_cons.mp hmem with h | hmem2
          · exact RunAction.noConfusion h
          · rcases List.mem_append.mp hmem2 with h3 | h3
            · obtain ⟨l, hl2, hmem3⟩ := List.mem_flatten.mp h3
              obtain ⟨p, hp, rfl⟩ := List.mem_map.mp hl2
              obtain ⟨nm, _, rfl⟩ := List.mem_map.mp hp
              exact validateKey_not_in_processImageModel _ nm hmem3
            · exact RunAction.noConfusion (List.mem_singleton.mp h3)
        have hcount : ∀ tail : List RunAction,
            RunAction.validateKey ∉ tail →
            (RunAction.validateKey :: tail).count RunAction.validateKey = 1 := by
          intro tail htail
          rw [List.count_cons_self, List.count_eq_zero.mpr htail]
        rcases sv with _ | es
        · exact ⟨rfl, hcount _ hnotmem, fun e h => by cases h⟩
        · exact ⟨rfl, hcount _ hnotmem, fun e h => by cases h⟩
  · exact ⟨rfl, rfl, fun e2 h => by cases h; rfl⟩

/-- A concrete environment whose credential validation fails. -/
def badKeyEnv : RunEnv :=
  { validateResult := some "invalid API key"
    listResult := .ok ["Img-0001.jpg"]
    loadResult := fun _ => .ok [0]
    resizeResult := fun _ => .ok [0]
    ocrResult := fun _ => .ok ("text", 0, 1)
    saveResult := none }

/-- Witness for C2: with a failing credential the whole run is exactly the
validation action and the invalid-credential error. -/
theorem processImages_validates_credential_first_witness :
    (ProcessImages badKeyEnv ⟨10, ""⟩).2.head? = some .validateKey ∧
    ProcessImages badKeyEnv ⟨10, ""⟩ =
      (.error (.invalidCredential "invalid API key"), [.validateKey]) :=
  ⟨(processImages_validates_credential_first badKeyEnv ⟨10, ""⟩).1,
   (processImages_validates_credential_first badKeyEnv ⟨10, ""⟩).2.2
     "invalid API key" rfl⟩

/-! ### Bounded worker pool (app.go processImagesParallel) -/

/-- The effective worker count:
`concurrency := config.Concurrency; if concurrency <= 0 { concurrency = 10 }`. -/
def effectiveConcurrency (configured : Int) : Nat :=
  if configured ≤ 0 then 10 else configured.toNat

/-- A worker-pool state: the jobs not yet picked off the jobs channel, one
slot per worker goroutine (`some name` while that worker is processing
that image — loading, resizing or recognizing it), and the count of
results delivered. -/
structure PoolState where
  pending : List String
  workers : List (Option String)
  completed : Nat

/-- The initial state: all jobs queued, every worker idle. -/
def initPool (imageNames : List String) (configured : Int) : PoolState :=
  ⟨imageNames, List.replicate (effectiveConcurrency configured) none, 0⟩

/-- Tasks currently in flight: the busy workers. -/
def inFlight (s : PoolState) : Nat := (s.workers.filter Option.isSome).length

/-- One scheduling step of the pool: an idle worker receives the next job
from the jobs channel, or a busy worker finishes its image and delivers
its result. -/
inductive PoolStep : PoolState → PoolState → Prop
  | pick (s : PoolState) (i : Nat) (job : String) (rest : List String)
      (hw : s.workers[i]? = some none)
      (hp : s.pending = job :: rest) :
      PoolStep s ⟨rest, s.workers.set i (some job), s.completed⟩
  | finish (s : PoolState) (i : Nat) (job : String)
      (hw : s.workers[i]? = some (some job)) :
      PoolStep s ⟨s.pending, s.workers.set i none, s.completed + 1⟩

/-- Every step leaves the number of worker slots unchanged. -/
lemma poolStep_workers_length {s s2 : PoolState} (h : PoolStep s s2) :
    s2.workers.length = s.workers.length := by
  cases h <;> simp

/-- C9: for every configured concurrency limit (a non-positive or unset
limit defaulting to 10, a limit ≥ 1 taken as is), in every state the pool
can reach from the start of a run, at most `effectiveConcurrency` tasks
are in flight at once — and the effective limit is the configured one when
that is ≥ 1, and 10 otherwise. -/
theorem pool_never_exceeds_concurrency_limit (imageNames : List String)
    (configured : Int) (s : PoolState)
    (hreach : Relation.ReflTransGen PoolStep (initPool imageNames configured) s) :
    inFlight s ≤ effectiveConcurrency configured ∧
    (1 ≤ configured → effectiveConcurrency configured = configured.toNat) ∧
    (configured ≤ 0 → effectiveConcurrency configured = 10) := by
  have hlen : s.workers.length = effectiveConcurrency configured := by
    induction hreach with
    | refl => simp [initPool]
    | tail _ hstep ih => rw [poolStep_workers_length hstep, ih]
  refine ⟨?_, ?_, ?_⟩
  · calc inFlight s ≤ s.workers.length := List.length_filter_le _ _
      _ = effectiveConcurrency configured := hlen
  · intro h1
    rw [effectiveConcurrency, if_neg (by omega)]
  · intro h0
    rw [effectiveConcurrency, if_pos h0]

/-- Witness for C9: a concrete two-image run with limit 1, one step in —
one job picked up, one task in flight, within the limit. -/
theorem pool_never_exceeds_concurrency_limit_witness :
    inFlight ⟨["b.jpg"], [some "a.jpg"], 0⟩ ≤ effectiveConcurrency 1 ∧
    (1 ≤ (1 : Int) → effectiveConcurrency 1 = (1 : Int).toNat) ∧
    ((1 : Int) ≤ 0 → effectiveConcurrency 1 = 10) :=
  pool_never_exceeds_concurrency_limit ["a.jpg", "b.jpg"] 1
    ⟨["b.jpg"], [some "a.jpg"], 0⟩
    (Relation.ReflTransGen.single
      (by
        have h : initPool ["a.jpg", "b.jpg"] 1 =
            ⟨["a.jpg", "b.jpg"], [none], 0⟩ := by
          simp [initPool, effectiveConcurrency]
        rw [h]
        exact PoolStep.pick ⟨["a.jpg", "b.jpg"], [none], 0⟩ 0 "a.jpg" ["b.jpg"]
          rfl rfl))

end OCR
